import Mathlib

/-!
Verification of the branch-state resolution and workflow-orchestration engine
of the my-git-helper repository (Rust), shallowly embedded in Lean 4.

The external git tool and the interactive prompt library are modelled as
oracles (records of functions returning `Except`); `anyhow` errors are
modelled as strings and `.context(...)` as message prefixing.  Terminal
colouring (`.red()`, `.dimmed()`, ...) and quotation punctuation inside
messages are presentational and elided from the modelled strings; `println`
and `eprintln` calls are elided.  Workflows that issue state-mutating git
commands or present prompts are embedded in a writer monad `WE` that logs
those events, so that claims of the form "no deletion command is issued
before the validation failure" become statements about the log.
-/

/-- Rust `str::starts_with` for string patterns: byte-prefix test,
modelled on the character list underlying the string. -/
def rustStartsWith (s pre : String) : Bool :=
  pre.data.isPrefixOf s.data

/-- Core recursion of Rust `str::trim_start_matches`: repeatedly remove the
pattern from the front while it is a prefix.  Fuelled (one stripped
occurrence consumes at least one character, so `s.length` fuel is enough);
structural recursion keeps it kernel-reducible. -/
def trimStartAux : Nat → List Char → List Char → List Char
  | 0, _, s => s
  | fuel + 1, pat, s =>
    if pat ≠ [] ∧ pat.isPrefixOf s then
      trimStartAux fuel pat (s.drop pat.length)
    else
      s

/-- Rust `str::trim_start_matches(pat)`: strips EVERY leading occurrence of
`pat`, not just one. -/
def rustTrimStartMatches (s pat : String) : String :=
  ⟨trimStartAux s.data.length pat.data s.data⟩

/-- Rust `str::trim()` (whitespace stripped from both ends). -/
def rustTrim (s : String) : String :=
  ⟨((s.data.dropWhile Char.isWhitespace).reverse.dropWhile Char.isWhitespace).reverse⟩

/-- Substring occurrence test on character lists. -/
def isInfixOfChars (p : List Char) : List Char → Bool
  | [] => p.isEmpty
  | c :: rest => p.isPrefixOf (c :: rest) || isInfixOfChars p rest

/-- Rust `str::contains(pat)` for substring patterns. -/
def rustContainsStr (s pat : String) : Bool :=
  isInfixOfChars pat.data s.data

/-- Rust `str::strip_prefix(pat)`: `some` of the remainder when `pat` is a
prefix, `none` otherwise. -/
def rustStripPrefixOf (s pat : String) : Option String :=
  if pat.data.isPrefixOf s.data then some ⟨s.data.drop pat.data.length⟩ else none

/-- Split a character list at newline characters (keeping empty pieces). -/
def splitNL : List Char → List (List Char)
  | [] => [[]]
  | c :: rest =>
    match splitNL rest with
    | [] => [[]]
    | cur :: others => if c = '\n' then [] :: cur :: others else (c :: cur) :: others

/-- Rust `str::lines()`: split on newline, drop a trailing empty piece,
strip a trailing carriage return from each line. -/
def rustLines (s : String) : List String :=
  let parts := splitNL s.data
  let parts := match parts.getLast? with
    | some [] => parts.dropLast
    | _ => parts
  parts.map (fun l =>
    if l.getLast? = some '\x0d' then ⟨l.dropLast⟩ else ⟨l⟩)

/-- Stable insertion of `a` into `l`: before the first element `b` with
`le a b`. -/
def insertBy (le : α → α → Bool) (a : α) : List α → List α
  | [] => [a]
  | b :: bs => if le a b then a :: b :: bs else b :: insertBy le a bs

/-- Rust `slice::sort_by` (stable) modelled as stable insertion sort. -/
def sortBy (le : α → α → Bool) : List α → List α
  | [] => []
  | x :: xs => insertBy le x (sortBy le xs)

/-- `anyhow::Error` modelled as its rendered message. -/
abbrev GitError := String

/-- `anyhow`: `result.context(msg)` — on error, prefix the context message. -/
def withContext (c : String) (x : Except GitError α) : Except GitError α :=
  match x with
  | .error e => .error (c ++ ": " ++ e)
  | .ok a => .ok a

/-- `BranchDisplayStatus` from src/utils.rs. -/
inductive BranchDisplayStatus where
  | Synced
  | LocalOnly
  | Ahead
  | Behind
  | Diverged
deriving DecidableEq

/-- `ResolvedBranchInfo` from src/utils.rs. -/
structure ResolvedBranchInfo where
  local_candidate_name : String
  local_exists : Bool
  remote_tracking_candidate_name : String
  remote_tracking_exists : Bool
deriving DecidableEq

/-- `SelectOption` from src/utils.rs, monomorphised at `V = String`
(the only instantiation the workflows use). -/
structure SelectOption where
  display : String
  value : String
deriving DecidableEq

/-- The external git tool (`GitCommandTrait` plus the `GitCommand` statics the
workflows call directly), as a deterministic oracle: each method is a pure
function of its arguments returning the subprocess outcome. -/
structure GitOracle where
  rev_parse_verify : String → Except GitError Bool
  rev_parse_commit_id : String → Except GitError String
  merge_base : String → String → Except GitError String
  symbolic_ref_head : Except GitError String
  remote_get_url : String → Except GitError String
  status_porcelain_v1 : Except GitError String
  branch_list_local_str : Except GitError String
  branch_list_all_str : Except GitError String
  add : String → Except GitError Unit
  commit : String → Except GitError Unit
  branch_create_local : String → Except GitError Unit
  branch_delete_local_d : String → Except GitError Unit
  push_delete : String → String → Except GitError Unit
  checkout_b : String → Except GitError Unit
  merge : String → Except GitError Bool
  reset_hard_head : Except GitError Unit

/-- The dialoguer prompt adapter as an oracle: what the user answers to each
prompt (errors model terminal failures). -/
structure PromptOracle where
  confirm : String → Except GitError Bool
  input : String → Except GitError String
  fuzzySelect : String → List SelectOption → Except GitError (Option String)
  select : String → List String → Except GitError (Option Nat)

/-- Prompt events presented to the user. -/
inductive PromptEv where
  | confirmP (msg : String)
  | inputP (msg : String)
  | selectP (msg : String)
  | fuzzyP (msg : String)
deriving DecidableEq

/-- State-mutating git commands a workflow can issue. -/
inductive GitEff where
  | addAll (path : String)
  | commitMsg (msg : String)
  | branchCreateLocal (name : String)
  | branchDeleteLocalD (name : String)
  | pushDeleteRemote (remote name : String)
  | checkoutB (name : String)
  | mergeBranch (name : String)
  | resetHardHead
deriving DecidableEq

/-- Observable events of a workflow run: quiet ref-verification queries,
prompts shown, and state-mutating git commands issued. -/
inductive Event where
  | query (refName : String)
  | prompt (p : PromptEv)
  | eff (e : GitEff)
deriving DecidableEq

/-- Writer-over-Except monad: a fallible computation together with the list
of events it produced (in order) before returning or failing. -/
structure WE (α : Type) where
  res : Except GitError α
  log : List Event

def WE.bind (x : WE α) (f : α → WE β) : WE β :=
  match x.res with
  | .error e => ⟨.error e, x.log⟩
  | .ok a => ⟨(f a).res, x.log ++ (f a).log⟩

instance : Monad WE where
  pure a := ⟨.ok a, []⟩
  bind := WE.bind

/-- Lift a plain fallible call that logs nothing (read-only queries). -/
def liftW (x : Except GitError α) : WE α := ⟨x, []⟩

/-- Record one event. -/
def emit (e : Event) : WE Unit := ⟨.ok (), [e]⟩

/-- `bail!` / early `Err` return. -/
def failW (msg : GitError) : WE α := ⟨.error msg, []⟩

/-- `.context(...)` lifted to `WE`. -/
def withContextW (c : String) (x : WE α) : WE α := ⟨withContext c x.res, x.log⟩

/-- The state-mutating git commands in a log. -/
def gitEffects (l : List Event) : List GitEff :=
  l.filterMap fun ev => match ev with | .eff e => some e | _ => none

/-- The prompts shown in a log. -/
def promptsShown (l : List Event) : List PromptEv :=
  l.filterMap fun ev => match ev with | .prompt p => some p | _ => none

/-- The quiet ref-verification queries in a log. -/
def refQueries (l : List Event) : List String :=
  l.filterMap fun ev => match ev with | .query r => some r | _ => none

/-- `GitCommand::rev_parse_verify` through the trait, with its query logged. -/
def rev_parse_verify_q (g : GitOracle) (r : String) : WE Bool := do
  emit (.query r)
  liftW (g.rev_parse_verify r)

/-- `get_branch_select_options_for_fuzzy` from src/utils.rs: the deduplicated,
display-sorted union of local branches and origin remote-tracking branches.
The Rust `HashSet` of processed values is modelled as the list of values
inserted so far; `sort_by` on the display label is a stable sort. -/
def get_branch_select_options_for_fuzzy (g : GitOracle) : WE (List SelectOption) := do
  let local_branch_str ← liftW (withContext "ローカルブランチリストの取得に失敗" g.branch_list_local_str)
  let acc1 := (rustLines local_branch_str).foldl
    (fun (acc : List SelectOption × List String) line =>
      let branch_name := rustTrim (rustTrimStartMatches line "* ")
      if !branch_name.isEmpty && !rustContainsStr branch_name "->" then
        if acc.2.contains branch_name then acc
        else (acc.1 ++ [{ display := branch_name ++ " (local)", value := branch_name }],
              acc.2 ++ [branch_name])
      else acc)
    ([], [])
  let all_branch_str ← liftW (withContext "全ブランチリストの取得に失敗" g.branch_list_all_str)
  let acc2 := (rustLines all_branch_str).foldl
    (fun (acc : List SelectOption × List String) line =>
      let trimmed_line := rustTrim (rustTrimStartMatches line "* ")
      match rustStripPrefixOf trimmed_line "remotes/origin/" with
      | some remote_name_part =>
        if !rustContainsStr remote_name_part "HEAD ->" then
          let value_for_remote := "origin/" ++ remote_name_part
          if acc.2.contains value_for_remote then acc
          else (acc.1 ++ [{ display := remote_name_part ++ " (origin)", value := value_for_remote }],
                acc.2 ++ [value_for_remote])
        else acc
      | none => acc)
    acc1
  pure (sortBy (fun a b => !decide (b.display.data < a.display.data)) acc2.1)

/-- `resolve_branch_input` from src/utils.rs: compute the local and
remote-tracking candidate names, probe the local one only when the input is
not already origin-prefixed, and always probe the remote-tracking one. -/
def resolve_branch_input (name_from_user : String) (g : GitOracle) : WE ResolvedBranchInfo := do
  let (local_candidate_name, remote_tracking_candidate_name) :=
    if rustStartsWith name_from_user "origin/" then
      (rustTrimStartMatches name_from_user "origin/", name_from_user)
    else
      (name_from_user, "origin/" ++ name_from_user)
  let local_exists ←
    if !rustStartsWith name_from_user "origin/" then
      withContextW ("ローカルブランチ " ++ local_candidate_name ++ " の状態確認に失敗")
        (rev_parse_verify_q g local_candidate_name)
    else
      pure false
  let remote_tracking_exists ←
    withContextW ("リモート追跡ブランチ " ++ remote_tracking_candidate_name ++ " の状態確認に失敗")
      (rev_parse_verify_q g remote_tracking_candidate_name)
  pure { local_candidate_name, local_exists,
         remote_tracking_candidate_name, remote_tracking_exists }

/-- `get_current_branch_name` from src/utils.rs. -/
def get_current_branch_name (g : GitOracle) : Except GitError String :=
  withContext "現在のブランチ名の取得に失敗" g.symbolic_ref_head

/-- `get_origin_url` from src/utils.rs. -/
def get_origin_url (g : GitOracle) : Except GitError String :=
  g.remote_get_url "origin"

/-- Rust `.unwrap_or_default()` on a `Result<String>`. -/
def unwrapOrDefault (x : Except GitError String) : String :=
  match x with
  | .ok s => s
  | .error _ => ""

/-- `get_branch_display_status` from src/utils.rs: classify a local branch
against its origin remote-tracking counterpart.  The note strings carry the
needs-push / needs-pull / diverged annotations (`dimmed` styling elided). -/
def get_branch_display_status (local_branch local_id : String) (g : GitOracle) :
    Except GitError (BranchDisplayStatus × String) := do
  let remote_tracking_branch := "origin/" ++ local_branch
  let remote_exists ← withContext
    ("リモート追跡ブランチ " ++ remote_tracking_branch ++ " の存在確認に失敗")
    (g.rev_parse_verify remote_tracking_branch)
  if !remote_exists then
    pure (.LocalOnly, "")
  else do
    let remote_id ← withContext
      ("リモート追跡ブランチ " ++ remote_tracking_branch ++ " のコミットID取得に失敗")
      (g.rev_parse_commit_id remote_tracking_branch)
    if remote_id.isEmpty then
      pure (.LocalOnly, "")
    else if local_id = remote_id then
      pure (.Synced, "")
    else do
      let base_id ← withContext
        (local_branch ++ " と " ++ remote_tracking_branch ++ " の共通祖先の検索に失敗")
        (g.merge_base local_id remote_id)
      if base_id = remote_id then
        pure (.Ahead, "(要プッシュ)")
      else if base_id = local_id then
        pure (.Behind, "(要プル)")
      else
        pure (.Diverged, "(分岐)")

/-- `ensure_branch_exists` from src/utils.rs. -/
def ensure_branch_exists (branch_name : String) (g : GitOracle) (action_verb : String) : WE Unit := do
  let ex ← withContextW (action_verb ++ "ブランチ " ++ branch_name ++ " の状態確認に失敗")
    (rev_parse_verify_q g branch_name)
  if !ex then
    failW ("エラー: " ++ action_verb ++ "ブランチ " ++ branch_name ++ " が見つかりません。")
  else
    pure ()

/-- `ensure_branch_not_exists` from src/utils.rs. -/
def ensure_branch_not_exists (branch_name : String) (g : GitOracle) (entity_description : String) : WE Unit := do
  let ex ← withContextW (entity_description ++ " " ++ branch_name ++ " の状態確認に失敗")
    (rev_parse_verify_q g branch_name)
  if ex then
    failW ("エラー: " ++ entity_description ++ " " ++ branch_name ++ " は既に存在します。")
  else
    pure ()

/-- `prompt_confirm` from src/utils.rs (dialoguer Confirm, default No). -/
def prompt_confirm (p : PromptOracle) (message : String) : WE Bool := do
  emit (.prompt (.confirmP message))
  liftW (p.confirm message)

/-- `prompt_input` from src/utils.rs (dialoguer Input). -/
def prompt_input (p : PromptOracle) (message : String) : WE String := do
  emit (.prompt (.inputP message))
  liftW (p.input message)

/-- `prompt_non_empty_input` from src/utils.rs. -/
def prompt_non_empty_input (p : PromptOracle) (message error_if_empty : String) : WE String := do
  let input ← prompt_input p message
  if input.isEmpty then
    failW error_if_empty
  else
    pure input

/-- `prompt_fuzzy_select` from src/utils.rs: the oracle models the user
choosing one of the offered options (or cancelling). -/
def prompt_fuzzy_select (p : PromptOracle) (msg : String) (options : List SelectOption) :
    WE (Option String) := do
  emit (.prompt (.fuzzyP msg))
  liftW (p.fuzzySelect msg options)

/-- dialoguer `Select` used by the uncommitted-changes guard: the oracle
models the user choosing an item index (or pressing Esc). -/
def prompt_select_index (p : PromptOracle) (msg : String) (items : List String) :
    WE (Option Nat) := do
  emit (.prompt (.selectP msg))
  liftW (p.select msg items)

/-- `GitCommand::checkout_b` with its state-mutating effect logged. -/
def checkout_b_eff (g : GitOracle) (b : String) : WE Unit := do
  emit (.eff (.checkoutB b))
  liftW (g.checkout_b b)

/-- `GitCommand::add` with its effect logged. -/
def add_eff (g : GitOracle) (path : String) : WE Unit := do
  emit (.eff (.addAll path))
  liftW (g.add path)

/-- `GitCommand::commit` with its effect logged. -/
def commit_eff (g : GitOracle) (msg : String) : WE Unit := do
  emit (.eff (.commitMsg msg))
  liftW (g.commit msg)

/-- `GitCommand::branch_create_local` with its effect logged. -/
def branch_create_local_eff (g : GitOracle) (name : String) : WE Unit := do
  emit (.eff (.branchCreateLocal name))
  liftW (g.branch_create_local name)

/-- `GitCommand::branch_delete_local_d` with its effect logged. -/
def branch_delete_local_d_eff (g : GitOracle) (b : String) : WE Unit := do
  emit (.eff (.branchDeleteLocalD b))
  liftW (g.branch_delete_local_d b)

/-- `GitCommand::push_delete` with its effect logged. -/
def push_delete_eff (g : GitOracle) (remote b : String) : WE Unit := do
  emit (.eff (.pushDeleteRemote remote b))
  liftW (g.push_delete remote b)

/-- `GitCommand::merge` (exit-code-only) with its effect logged. -/
def merge_eff (g : GitOracle) (b : String) : WE Bool := do
  emit (.eff (.mergeBranch b))
  liftW (g.merge b)

/-- `GitCommand::reset_hard_head` with its effect logged. -/
def reset_hard_head_eff (g : GitOracle) : WE Unit := do
  emit (.eff .resetHardHead)
  liftW g.reset_hard_head

/-- `handle_conflict_and_offer_new_branch` from src/utils.rs: after a failed
merge or pull, offer to salvage the conflicted working state onto a new
branch; declining is an error instructing manual resolution. -/
def handle_conflict_and_offer_new_branch (operation_name : String) (g : GitOracle)
    (p : PromptOracle) : WE Unit := do
  let c ← prompt_confirm p "この状態で新しいブランチを作成して変更を保持しますか？"
  if c then do
    let new_branch_name ← prompt_non_empty_input p "新しいブランチ名: "
      "エラー: ブランチ名が入力されませんでした。"
    ensure_branch_not_exists new_branch_name g "ブランチ"
    withContextW ("新しいブランチ " ++ new_branch_name ++ " の作成と切り替えに失敗")
      (checkout_b_eff g new_branch_name)
  else
    failW "新しいブランチは作成しませんでした。手動で状況を確認してください。"

/-- `handle_uncommitted_changes_before_action` from
my-git-helper/src/utils.rs: the uncommitted-changes guard.  Returns `true`
when the guarded action may continue, `false` when it is aborted. -/
def handle_uncommitted_changes_before_action (action_name : String) (g : GitOracle)
    (p : PromptOracle) : WE Bool := do
  let status_output ← liftW (withContext "git status の取得に失敗" g.status_porcelain_v1)
  if status_output.isEmpty then
    pure true
  else do
    let choices := ["Save: 現在の変更をコミットする",
                    "Create: 新しいブランチに変更を保持して作成する",
                    "Reset: 現在の変更を破棄する (危険！)",
                    "Cancel: 操作を中止する"]
    let selection_idx_opt ← prompt_select_index p "操作を選択してください" choices
    match selection_idx_opt with
    | some 0 => do
        let msg ← prompt_non_empty_input p "コミットメッセージ:" "エラー: メッセージ必須。"
        withContextW "git add . 失敗" (add_eff g ".")
        withContextW ("コミット失敗: " ++ msg) (commit_eff g msg)
        pure true
    | some 1 => do
        let name ← prompt_non_empty_input p "新しいブランチ名:" "エラー: ブランチ名必須。"
        ensure_branch_not_exists name g "ブランチ"
        withContextW ("ローカルブランチ " ++ name ++ " の作成失敗")
          (branch_create_local_eff g name)
        pure false
    | some 2 => do
        let c ← prompt_confirm p "本当によろしいですか？この操作は元に戻せません！"
        if c then do
          withContextW "git reset --hard HEAD の実行に失敗" (reset_hard_head_eff g)
          pure true
        else
          pure false
    | some 3 => pure false
    | none => pure false
    | some _ => failW "unreachable"

/-- `git_delete` from src/cmds.rs: interactive local/remote branch deletion.
Refuses to delete the currently checked-out branch; each deletion is gated by
its own confirmation. -/
def git_delete (g : GitOracle) (p : PromptOracle) : WE Unit := do
  let branch_options ← withContextW "削除対象ブランチ選択肢の取得失敗"
    (get_branch_select_options_for_fuzzy g)
  if branch_options.isEmpty then
    pure ()
  else do
    let target_input_opt ← prompt_fuzzy_select p "削除するブランチを選択:" branch_options
    match target_input_opt with
    | none => pure ()
    | some target_input => do
      let resolved ← resolve_branch_input target_input g
      let current_branch_name ← liftW (get_current_branch_name g)
      let remote_url := unwrapOrDefault (get_origin_url g)
      let something_done ←
        if resolved.local_exists then do
          if current_branch_name = resolved.local_candidate_name then
            failW ("エラー: 現在チェックアウト中のローカルブランチ "
                   ++ resolved.local_candidate_name ++ " は削除できません。")
          else
            pure ()
          let c ← prompt_confirm p ("ローカルブランチ " ++ resolved.local_candidate_name
                                    ++ " を削除しますか？")
          if c then do
            withContextW ("ローカルブランチ " ++ resolved.local_candidate_name ++ " の削除失敗")
              (branch_delete_local_d_eff g resolved.local_candidate_name)
            pure true
          else
            pure false
        else
          pure false
      let something_done ←
        if resolved.remote_tracking_exists && !remote_url.isEmpty then do
          let c ← prompt_confirm p ("リモートブランチ " ++ resolved.remote_tracking_candidate_name
                                    ++ " を削除しますか？")
          if c then do
            withContextW ("リモートブランチ " ++ resolved.remote_tracking_candidate_name ++ " の削除失敗")
              (push_delete_eff g "origin" resolved.local_candidate_name)
            pure true
          else
            pure something_done
        else
          pure something_done
      if !something_done then
        if !resolved.local_exists && !resolved.remote_tracking_exists then
          failW ("選択されたブランチ " ++ target_input ++ " が見つかりませんでした。")
        else
          pure ()
      else
        pure ()

/-- The target filter of `git_merge` (src/cmds.rs): drop the current branch
and every option whose value starts with `origin/<current>`. -/
def merge_branch_options (options : List SelectOption) (cur_b : String) : List SelectOption :=
  options.filter (fun opt => opt.value != cur_b && !rustStartsWith opt.value ("origin/" ++ cur_b))

/-- `git_merge` from src/cmds.rs: merge a selected branch into the current
one; on a non-zero merge exit enter conflict recovery. -/
def git_merge (g : GitOracle) (p : PromptOracle) : WE Unit := do
  let cur_b ← liftW (get_current_branch_name g)
  if cur_b.isEmpty then
    failW "エラー: 現在のブランチが不明です。"
  else do
    let branch_options0 ← get_branch_select_options_for_fuzzy g
    let branch_options := merge_branch_options branch_options0 cur_b
    if branch_options.isEmpty then
      pure ()
    else do
      let target_opt ← prompt_fuzzy_select p
        ("ブランチ " ++ cur_b ++ " にマージするブランチを選択:") branch_options
      match target_opt with
      | none => pure ()
      | some target => do
        ensure_branch_exists target g ""
        let merged ← withContextW ("ブランチ " ++ target ++ " のマージ中にエラー")
          (merge_eff g target)
        if merged then
          if rustStartsWith target "origin/" then
            pure ()
          else do
            let d ← prompt_confirm p ("マージ元のローカルブランチ " ++ target ++ " を削除しますか？")
            if d then
              withContextW ("ローカルブランチ " ++ target ++ " の削除失敗")
                (branch_delete_local_d_eff g target)
            else
              pure ()
        else
          handle_conflict_and_offer_new_branch "マージ" g p

/-- Outcome of spawning the external tool once: the spawn itself can fail
(Rust `io::Error`), or the child runs and exits with a status code and
captured output streams. -/
inductive SpawnOutcome where
  | failed (msg : String)
  | exited (code : Int) (stdout stderr : String)

/-- The process environment: what happens when the external tool is invoked
with a given argument vector. -/
def ProcEnv := List String → SpawnOutcome

/-- The Command Runner error taxonomy of main.rs (`anyhow` messages carry the
description, exit code and captured streams; modelled structurally). -/
inductive CommandError where
  | spawnFailed (description msg : String)
  | nonZeroExit (description : String) (code : Int) (stderr stdout : String)
deriving DecidableEq

/-- `GitCommand::execute_git_command_internal` from src/main.rs: captured or
inherit-stdio execution; a non-zero exit is an error. -/
def execute_git_command_internal (env : ProcEnv) (args : List String)
    (capture_stdout : Bool) (description : String) : Except CommandError String :=
  match env args with
  | .failed e => .error (.spawnFailed description e)
  | .exited code out err =>
    if code = 0 then
      if capture_stdout then .ok out.trim else .ok ""
    else
      .error (.nonZeroExit description code err out)

/-- `GitCommand::run_check_exit_code_zero` from src/main.rs: both streams
discarded; the boolean result is "exit status was zero"; only a spawn
failure is an error. -/
def run_check_exit_code_zero (env : ProcEnv) (args : List String)
    (cmd_description : String) : Except CommandError Bool :=
  match env args with
  | .exited code _ _ => .ok (code == 0)
  | .failed e => .error (.spawnFailed cmd_description e)

/-- A benign git oracle for concrete runs: no refs exist, no remote is
configured, every command succeeds. -/
def gNone : GitOracle where
  rev_parse_verify := fun _ => .ok false
  rev_parse_commit_id := fun _ => .ok ""
  merge_base := fun _ _ => .ok ""
  symbolic_ref_head := .ok ""
  remote_get_url := fun _ => .error "no origin"
  status_porcelain_v1 := .ok ""
  branch_list_local_str := .ok ""
  branch_list_all_str := .ok ""
  add := fun _ => .ok ()
  commit := fun _ => .ok ()
  branch_create_local := fun _ => .ok ()
  branch_delete_local_d := fun _ => .ok ()
  push_delete := fun _ _ => .ok ()
  checkout_b := fun _ => .ok ()
  merge := fun _ => .ok true
  reset_hard_head := .ok ()

/-- A repository with local branches `main` and `dev`, currently on `dev`,
with no remote configured. -/
def gBr : GitOracle :=
  { gNone with
    branch_list_local_str := .ok "* main\n  dev"
    rev_parse_verify := fun r => .ok (r == "dev")
    symbolic_ref_head := .ok "dev" }

/-- A branch `b` whose remote-tracking counterpart exists at commit `r`,
while the local tip is `l` and the common ancestor is `a`. -/
def gStat : GitOracle :=
  { gNone with
    rev_parse_verify := fun _ => .ok true
    rev_parse_commit_id := fun _ => .ok "r"
    merge_base := fun _ _ => .ok "a" }

/-- Like `gStat` but the common-ancestor query fails (e.g. unrelated
histories make `git merge-base` exit non-zero). -/
def gMBfail : GitOracle :=
  { gStat with merge_base := fun _ _ => .error "merge-base failed" }

/-- A user who declines every confirmation and selects `dev` in the fuzzy
chooser. -/
def pDel : PromptOracle where
  confirm := fun _ => .ok false
  input := fun _ => .ok ""
  fuzzySelect := fun _ _ => .ok (some "dev")
  select := fun _ _ => .ok none

/-- A user who accepts every confirmation and types `wip-salvage`. -/
def pAcc : PromptOracle where
  confirm := fun _ => .ok true
  input := fun _ => .ok "wip-salvage"
  fuzzySelect := fun _ _ => .ok none
  select := fun _ _ => .ok none

/-- A process environment where every invocation runs and exits with code 1. -/
def envExit1 : ProcEnv := fun _ => .exited 1 "" ""

/-! ## Helper lemmas about the writer monad and the traced helpers -/

theorem WE.bind_eq (x : WE α) (f : α → WE β) : x >>= f = WE.bind x f := rfl

theorem WE.pure_def (a : α) : (pure a : WE α) = ⟨.ok a, []⟩ := rfl

theorem WE.bind_res_ok {x : WE α} {a : α} (f : α → WE β) (h : x.res = .ok a) :
    WE.bind x f = ⟨(f a).res, x.log ++ (f a).log⟩ := by
  simp [WE.bind, h]

theorem WE.bind_res_error {x : WE α} {e : GitError} (f : α → WE β) (h : x.res = .error e) :
    WE.bind x f = ⟨.error e, x.log⟩ := by
  simp [WE.bind, h]

theorem withContext_ok (c : String) (a : α) : withContext c (.ok a) = .ok a := rfl

theorem withContext_error (c : String) (e : GitError) :
    withContext c (.error e : Except GitError α) = .error (c ++ ": " ++ e) := rfl

theorem rev_parse_verify_q_eq (g : GitOracle) (r : String) :
    rev_parse_verify_q g r = ⟨g.rev_parse_verify r, [.query r]⟩ := by
  cases h : g.rev_parse_verify r <;>
    simp [rev_parse_verify_q, emit, liftW, WE.bind_eq, WE.bind, h]

theorem prompt_confirm_eq (p : PromptOracle) (m : String) :
    prompt_confirm p m = ⟨p.confirm m, [.prompt (.confirmP m)]⟩ := by
  cases h : p.confirm m <;>
    simp [prompt_confirm, emit, liftW, WE.bind_eq, WE.bind, h]

theorem prompt_input_eq (p : PromptOracle) (m : String) :
    prompt_input p m = ⟨p.input m, [.prompt (.inputP m)]⟩ := by
  cases h : p.input m <;>
    simp [prompt_input, emit, liftW, WE.bind_eq, WE.bind, h]

theorem prompt_fuzzy_select_eq (p : PromptOracle) (m : String) (options : List SelectOption) :
    prompt_fuzzy_select p m options = ⟨p.fuzzySelect m options, [.prompt (.fuzzyP m)]⟩ := by
  cases h : p.fuzzySelect m options <;>
    simp [prompt_fuzzy_select, emit, liftW, WE.bind_eq, WE.bind, h]

theorem prompt_select_index_eq (p : PromptOracle) (m : String) (items : List String) :
    prompt_select_index p m items = ⟨p.select m items, [.prompt (.selectP m)]⟩ := by
  cases h : p.select m items <;>
    simp [prompt_select_index, emit, liftW, WE.bind_eq, WE.bind, h]

theorem checkout_b_eff_eq (g : GitOracle) (b : String) :
    checkout_b_eff g b = ⟨g.checkout_b b, [.eff (.checkoutB b)]⟩ := by
  cases h : g.checkout_b b <;>
    simp [checkout_b_eff, emit, liftW, WE.bind_eq, WE.bind, h]

theorem branch_delete_local_d_eff_eq (g : GitOracle) (b : String) :
    branch_delete_local_d_eff g b = ⟨g.branch_delete_local_d b, [.eff (.branchDeleteLocalD b)]⟩ := by
  cases h : g.branch_delete_local_d b <;>
    simp [branch_delete_local_d_eff, emit, liftW, WE.bind_eq, WE.bind, h]

theorem push_delete_eff_eq (g : GitOracle) (r b : String) :
    push_delete_eff g r b = ⟨g.push_delete r b, [.eff (.pushDeleteRemote r b)]⟩ := by
  cases h : g.push_delete r b <;>
    simp [push_delete_eff, emit, liftW, WE.bind_eq, WE.bind, h]

theorem gitEffects_append (a b : List Event) :
    gitEffects (a ++ b) = gitEffects a ++ gitEffects b := by
  simp [gitEffects, List.filterMap_append]

theorem gitEffects_nil : gitEffects [] = [] := rfl

theorem gitEffects_cons_prompt (pe : PromptEv) (l : List Event) :
    gitEffects (.prompt pe :: l) = gitEffects l := rfl

theorem gitEffects_cons_query (r : String) (l : List Event) :
    gitEffects (.query r :: l) = gitEffects l := rfl

theorem get_branch_select_options_log (g : GitOracle) :
    (get_branch_select_options_for_fuzzy g).log = [] := by
  cases h1 : g.branch_list_local_str <;> cases h2 : g.branch_list_all_str <;>
    simp [get_branch_select_options_for_fuzzy, liftW, withContext, WE.bind_eq, WE.bind,
      WE.pure_def, h1, h2]

theorem resolve_prefixed_log (n : String) (g : GitOracle)
    (h : rustStartsWith n "origin/" = true) :
    (resolve_branch_input n g).log = [.query n] := by
  cases hr : g.rev_parse_verify n <;>
    simp [resolve_branch_input, rev_parse_verify_q_eq, withContextW, withContext,
      WE.bind_eq, WE.bind, WE.pure_def, h, hr]

theorem resolve_prefixed_res (n : String) (g : GitOracle) (re : Bool)
    (h : rustStartsWith n "origin/" = true) (hr : g.rev_parse_verify n = .ok re) :
    (resolve_branch_input n g).res = .ok ⟨rustTrimStartMatches n "origin/", false, n, re⟩ := by
  simp [resolve_branch_input, rev_parse_verify_q_eq, withContextW, withContext,
    WE.bind_eq, WE.bind, WE.pure_def, h, hr]

theorem resolve_nonprefixed_log (n : String) (g : GitOracle)
    (h : rustStartsWith n "origin/" = false) (hloc : (g.rev_parse_verify n).isOk = true) :
    (resolve_branch_input n g).log = [.query n, .query ("origin/" ++ n)] := by
  cases hl : g.rev_parse_verify n with
  | error e => rw [hl] at hloc; simp [Except.isOk, Except.toBool] at hloc
  | ok le =>
    cases hr : g.rev_parse_verify ("origin/" ++ n) <;>
      simp [resolve_branch_input, rev_parse_verify_q_eq, withContextW, withContext,
        WE.bind_eq, WE.bind, WE.pure_def, h, hl, hr]

theorem resolve_nonprefixed_res (n : String) (g : GitOracle) (le re : Bool)
    (h : rustStartsWith n "origin/" = false) (hl : g.rev_parse_verify n = .ok le)
    (hr : g.rev_parse_verify ("origin/" ++ n) = .ok re) :
    (resolve_branch_input n g).res = .ok ⟨n, le, "origin/" ++ n, re⟩ := by
  simp [resolve_branch_input, rev_parse_verify_q_eq, withContextW, withContext,
    WE.bind_eq, WE.bind, WE.pure_def, h, hl, hr]

theorem resolve_branch_input_no_effects (n : String) (g : GitOracle) :
    gitEffects (resolve_branch_input n g).log = [] := by
  by_cases h : rustStartsWith n "origin/" = true
  · cases hr : g.rev_parse_verify n <;>
      simp [resolve_branch_input, rev_parse_verify_q_eq, withContextW, withContext,
        WE.bind_eq, WE.bind, WE.pure_def, h, hr, gitEffects]
  · replace h : rustStartsWith n "origin/" = false := by
      cases hb : rustStartsWith n "origin/" <;> simp [hb] at h ⊢
    cases hl : g.rev_parse_verify n with
    | error e =>
      simp [resolve_branch_input, rev_parse_verify_q_eq, withContextW, withContext,
        WE.bind_eq, WE.bind, WE.pure_def, h, hl, gitEffects]
    | ok le =>
      cases hr : g.rev_parse_verify ("origin/" ++ n) <;>
        simp [resolve_branch_input, rev_parse_verify_q_eq, withContextW, withContext,
          WE.bind_eq, WE.bind, WE.pure_def, h, hl, hr, gitEffects]

theorem string_data_append (a b : String) : (a ++ b).data = a.data ++ b.data := by
  cases a
  cases b
  rfl

theorem rustStartsWith_append (p s : String) : rustStartsWith (p ++ s) p = true := by
  simp [rustStartsWith, string_data_append]

theorem trimStartAux_prefix_step {pat s : List Char} (fuel : Nat) (h1 : pat ≠ [])
    (h2 : pat.isPrefixOf s = true) :
    trimStartAux (fuel + 1) pat s = trimStartAux fuel pat (s.drop pat.length) := by
  simp [trimStartAux, h1, h2]

theorem trimStartAux_no_step {pat s : List Char} (fuel : Nat)
    (h2 : pat.isPrefixOf s = false) :
    trimStartAux fuel pat s = s := by
  cases fuel <;> simp [trimStartAux, h2]

theorem rustTrimStartMatches_origin_append (X : String)
    (hX : rustStartsWith X "origin/" = false) :
    rustTrimStartMatches ("origin/" ++ X) "origin/" = X := by
  unfold rustTrimStartMatches
  rw [string_data_append]
  have h1 : ("origin/" : String).data ≠ [] := by decide
  have h2 : ("origin/" : String).data.isPrefixOf
      (("origin/" : String).data ++ X.data) = true := by
    simp
  have hlen : (("origin/" : String).data ++ X.data).length = X.data.length + 7 := by
    simp [List.length_append]
  rw [hlen, trimStartAux_prefix_step (X.data.length + 6) h1 h2, List.drop_left,
    trimStartAux_no_step _ hX]

/-! ## Claim theorems -/

/-- C1: when the remote-tracking ref exists and its commit id is non-empty,
sync-status classification is a total, deterministic function of the
(local commit, remote commit, common ancestor) triple: exactly one of the
five statuses is produced, with Synced iff the commits agree, Ahead iff they
differ and the ancestor is the remote commit, Behind iff they differ and the
ancestor is the local commit, and Diverged iff they differ and the ancestor
is neither. -/
theorem claim_C1_classification_total (local_branch local_id remote_id base_id : String)
    (g : GitOracle)
    (hver : g.rev_parse_verify ("origin/" ++ local_branch) = .ok true)
    (hid : g.rev_parse_commit_id ("origin/" ++ local_branch) = .ok remote_id)
    (hne : remote_id.isEmpty = false)
    (hbase : g.merge_base local_id remote_id = .ok base_id) :
    ∃ st note, get_branch_display_status local_branch local_id g = .ok (st, note) ∧
      (st = .Synced ↔ local_id = remote_id) ∧
      (st = .Ahead ↔ local_id ≠ remote_id ∧ base_id = remote_id) ∧
      (st = .Behind ↔ local_id ≠ remote_id ∧ base_id = local_id) ∧
      (st = .Diverged ↔ local_id ≠ remote_id ∧ base_id ≠ remote_id ∧ base_id ≠ local_id) ∧
      st ≠ .LocalOnly := by
  by_cases h1 : local_id = remote_id
  · refine ⟨.Synced, "", ?_, ?_, ?_, ?_, ?_, ?_⟩ <;>
      simp [get_branch_display_status, hver, hid, hne, hbase, h1, withContext, Except.bind, Except.pure, Bind.bind, Pure.pure]
  · by_cases h2 : base_id = remote_id
    · refine ⟨.Ahead, "(要プッシュ)", ?_, ?_, ?_, ?_, ?_, ?_⟩ <;>
        simp [get_branch_display_status, hver, hid, hne, hbase, h1, h2, withContext, Except.bind, Except.pure, Bind.bind, Pure.pure, Ne.symm h1]
    · by_cases h3 : base_id = local_id
      · refine ⟨.Behind, "(要プル)", ?_, ?_, ?_, ?_, ?_, ?_⟩ <;>
          simp [get_branch_display_status, hver, hid, hne, hbase, h1, h2, h3, withContext, Except.bind, Except.pure, Bind.bind, Pure.pure, Ne.symm h1]
      · refine ⟨.Diverged, "(分岐)", ?_, ?_, ?_, ?_, ?_, ?_⟩ <;>
          simp [get_branch_display_status, hver, hid, hne, hbase, h1, h2, h3, withContext, Except.bind, Except.pure, Bind.bind, Pure.pure, Ne.symm h1]

/-- Witness for C1 at a concrete oracle: remote at `r`, local at `l`,
ancestor `a` — the classification succeeds and is Diverged. -/
theorem claim_C1_classification_total_witness :
    ∃ st note, get_branch_display_status "b" "l" gStat = .ok (st, note) ∧
      (st = .Synced ↔ ("l" : String) = "r") ∧
      (st = .Ahead ↔ ("l" : String) ≠ "r" ∧ ("a" : String) = "r") ∧
      (st = .Behind ↔ ("l" : String) ≠ "r" ∧ ("a" : String) = "l") ∧
      (st = .Diverged ↔ ("l" : String) ≠ "r" ∧ ("a" : String) ≠ "r" ∧ ("a" : String) ≠ "l") ∧
      st ≠ .LocalOnly :=
  claim_C1_classification_total "b" "l" "r" "a" gStat rfl rfl rfl rfl

/-- C10: whenever classification succeeds, the returned note is empty exactly
when the status is Synced or LocalOnly, and non-empty exactly for Ahead,
Behind and Diverged (it carries the needs-push / needs-pull / diverged
annotation). -/
theorem claim_C10_note_empty_iff (local_branch local_id : String) (g : GitOracle)
    (st : BranchDisplayStatus) (note : String)
    (h : get_branch_display_status local_branch local_id g = .ok (st, note)) :
    note = "" ↔ (st = .Synced ∨ st = .LocalOnly) := by
  cases hv : g.rev_parse_verify ("origin/" ++ local_branch) with
  | error e =>
    simp [get_branch_display_status, hv, withContext, Except.bind, Except.pure,
      Bind.bind, Pure.pure] at h
  | ok b =>
    cases b with
    | false =>
      simp [get_branch_display_status, hv, withContext, Except.bind, Except.pure,
        Bind.bind, Pure.pure] at h
      obtain ⟨rfl, rfl⟩ := h
      simp
    | true =>
      cases hc : g.rev_parse_commit_id ("origin/" ++ local_branch) with
      | error e =>
        simp [get_branch_display_status, hv, hc, withContext, Except.bind, Except.pure,
          Bind.bind, Pure.pure] at h
      | ok rid =>
        by_cases hrid : rid.isEmpty
        · simp [get_branch_display_status, hv, hc, hrid, withContext, Except.bind,
            Except.pure, Bind.bind, Pure.pure] at h
          obtain ⟨rfl, rfl⟩ := h
          simp
        · by_cases heq : local_id = rid
          · simp [get_branch_display_status, hv, hc, hrid, heq, withContext, Except.bind,
              Except.pure, Bind.bind, Pure.pure] at h
            obtain ⟨rfl, rfl⟩ := h
            simp
          · cases hb : g.merge_base local_id rid with
            | error e =>
              simp [get_branch_display_status, hv, hc, hrid, heq, hb, withContext,
                Except.bind, Except.pure, Bind.bind, Pure.pure] at h
            | ok base =>
              by_cases h2 : base = rid
              · simp [get_branch_display_status, hv, hc, hrid, heq, hb, h2, withContext,
                  Except.bind, Except.pure, Bind.bind, Pure.pure] at h
                obtain ⟨rfl, rfl⟩ := h
                constructor
                · intro hx
                  exact absurd hx (by decide)
                · intro hx
                  rcases hx with hx | hx <;> exact absurd hx (by decide)
              · by_cases h3 : base = local_id
                · simp [get_branch_display_status, hv, hc, hrid, heq, hb, h2, h3,
                    withContext, Except.bind, Except.pure, Bind.bind, Pure.pure] at h
                  obtain ⟨rfl, rfl⟩ := h
                  constructor
                  · intro hx
                    exact absurd hx (by decide)
                  · intro hx
                    rcases hx with hx | hx <;> exact absurd hx (by decide)
                · simp [get_branch_display_status, hv, hc, hrid, heq, hb, h2, h3,
                    withContext, Except.bind, Except.pure, Bind.bind, Pure.pure] at h
                  obtain ⟨rfl, rfl⟩ := h
                  constructor
                  · intro hx
                    exact absurd hx (by decide)
                  · intro hx
                    rcases hx with hx | hx <;> exact absurd hx (by decide)

/-- Witness for C10 at a concrete run: on `gNone` the remote-tracking ref
does not exist, classification returns (LocalOnly, "") and the equivalence
holds there. -/
theorem claim_C10_note_empty_iff_witness :
    ("" : String) = "" ↔
      (BranchDisplayStatus.LocalOnly = .Synced ∨ BranchDisplayStatus.LocalOnly = .LocalOnly) :=
  claim_C10_note_empty_iff "b" "l" gNone .LocalOnly "" rfl

/-- C3 counterexample: with a remote-tracking ref at commit `r`, a differing
local commit `l`, and a failing common-ancestor query (`gMBfail`), the
classifier does NOT return (LocalOnly, ""): it returns an error. -/
theorem claim_C3_counterexample :
    get_branch_display_status "b" "l" gMBfail ≠ .ok (.LocalOnly, "") ∧
    (get_branch_display_status "b" "l" gMBfail).isOk = false := by
  have h : get_branch_display_status "b" "l" gMBfail =
      .error "b と origin/b の共通祖先の検索に失敗: merge-base failed" := rfl
  rw [h]
  exact ⟨by simp, rfl⟩

/-- C3 amended: if the common-ancestor query fails (remote-tracking ref
existing with a non-empty commit id differing from the local commit), the
classifier PROPAGATES that error to its caller, wrapped with context — it
does not degrade to (LocalOnly, ""). -/
theorem claim_C3_ancestor_error_propagates (local_branch local_id remote_id e : String)
    (g : GitOracle)
    (hver : g.rev_parse_verify ("origin/" ++ local_branch) = .ok true)
    (hid : g.rev_parse_commit_id ("origin/" ++ local_branch) = .ok remote_id)
    (hne : remote_id.isEmpty = false)
    (hdiff : local_id ≠ remote_id)
    (hmb : g.merge_base local_id remote_id = .error e) :
    get_branch_display_status local_branch local_id g =
      .error (local_branch ++ " と " ++ ("origin/" ++ local_branch)
              ++ " の共通祖先の検索に失敗" ++ ": " ++ e) := by
  simp [get_branch_display_status, hver, hid, hne, hdiff, hmb, withContext,
    Except.bind, Except.pure, Bind.bind, Pure.pure]

/-- Witness for C3 amended at the concrete oracle `gMBfail`. -/
theorem claim_C3_ancestor_error_propagates_witness :
    get_branch_display_status "b" "l" gMBfail =
      .error ("b" ++ " と " ++ ("origin/" ++ "b")
              ++ " の共通祖先の検索に失敗" ++ ": " ++ "merge-base failed") :=
  claim_C3_ancestor_error_propagates "b" "l" "r" "merge-base failed" gMBfail
    rfl rfl rfl (by decide) rfl

/-- C2 counterexample: for the input "origin/origin/b" (which is of the form
"origin/X" with X = "origin/b"), resolution yields local_candidate "b", not
"origin/b": `trim_start_matches` strips the remote prefix repeatedly. -/
theorem claim_C2_counterexample :
    (resolve_branch_input "origin/origin/b" gNone).res =
      .ok ⟨"b", false, "origin/origin/b", false⟩ ∧
    ("b" : String) ≠ "origin/b" := by
  refine ⟨rfl, by decide⟩

/-- C2 amended: for inputs starting with "origin/", the remote candidate is
the input verbatim and the local candidate is the input with EVERY leading
"origin/" occurrence stripped — which equals the suffix X of "origin/" ++ X
exactly when X does not itself start with "origin/"; for other inputs the
local candidate is the input verbatim and the remote candidate is
"origin/" ++ input. -/
theorem claim_C2_candidate_names (input : String) (g : GitOracle) (info : ResolvedBranchInfo)
    (h : (resolve_branch_input input g).res = .ok info) :
    (rustStartsWith input "origin/" = true →
        info.local_candidate_name = rustTrimStartMatches input "origin/" ∧
        info.remote_tracking_candidate_name = input ∧
        (∀ X, input = "origin/" ++ X → rustStartsWith X "origin/" = false →
          info.local_candidate_name = X)) ∧
    (rustStartsWith input "origin/" = false →
        info.local_candidate_name = input ∧
        info.remote_tracking_candidate_name = "origin/" ++ input) := by
  constructor
  · intro hb
    cases hr : g.rev_parse_verify input with
    | error e =>
      simp [resolve_branch_input, rev_parse_verify_q_eq, withContextW, withContext,
        WE.bind_eq, WE.bind, WE.pure_def, hb, hr] at h
    | ok re =>
      rw [resolve_prefixed_res input g re hb hr] at h
      injection h with h2
      subst h2
      refine ⟨rfl, rfl, ?_⟩
      intro X hXeq hX
      subst hXeq
      exact rustTrimStartMatches_origin_append X hX
  · intro hb
    cases hl : g.rev_parse_verify input with
    | error e =>
      simp [resolve_branch_input, rev_parse_verify_q_eq, withContextW, withContext,
        WE.bind_eq, WE.bind, WE.pure_def, hb, hl] at h
    | ok le =>
      cases hr : g.rev_parse_verify ("origin/" ++ input) with
      | error e =>
        simp [resolve_branch_input, rev_parse_verify_q_eq, withContextW, withContext,
          WE.bind_eq, WE.bind, WE.pure_def, hb, hl, hr] at h
      | ok re =>
        rw [resolve_nonprefixed_res input g le re hb hl hr] at h
        injection h with h2
        subst h2
        exact ⟨rfl, rfl⟩

/-- Witness for C2 amended: resolving the plain input "x" on `gNone` yields
candidates ("x", "origin/x"). -/
theorem claim_C2_candidate_names_witness :
    (ResolvedBranchInfo.mk "x" false "origin/x" false).local_candidate_name = "x" ∧
    (ResolvedBranchInfo.mk "x" false "origin/x" false).remote_tracking_candidate_name
      = "origin/" ++ "x" :=
  (claim_C2_candidate_names "x" gNone ⟨"x", false, "origin/x", false⟩ rfl).2 rfl

/-- C5: running the external tool in exit-code-only mode never yields a
NonZeroExit error: when the child runs, a non-zero exit becomes the ordinary
boolean result false (zero exit becomes true); the only possible error is a
spawn failure. -/
theorem claim_C5_exit_code_only (env : ProcEnv) (args : List String) (desc : String) :
    (∀ d c se so, run_check_exit_code_zero env args desc ≠ .error (.nonZeroExit d c se so)) ∧
    (∀ code out err, env args = .exited code out err →
      run_check_exit_code_zero env args desc = .ok (code == 0)) ∧
    (∀ m, env args = .failed m →
      run_check_exit_code_zero env args desc = .error (.spawnFailed desc m)) := by
  refine ⟨?_, ?_, ?_⟩
  · intro d c se so hc
    cases henv : env args <;> rw [run_check_exit_code_zero, henv] at hc <;> simp at hc
  · intro code out err henv
    rw [run_check_exit_code_zero, henv]
  · intro m henv
    rw [run_check_exit_code_zero, henv]

/-- Witness for C5 in an environment where every invocation exits with
code 1: the merge invocation returns the ordinary result false. -/
theorem claim_C5_exit_code_only_witness :
    run_check_exit_code_zero envExit1 ["merge", "feature"] "git merge" = .ok ((1 : Int) == 0) :=
  (claim_C5_exit_code_only envExit1 ["merge", "feature"] "git merge").2.1 1 "" "" rfl

/-- C8 counterexample: with current branch "feat", the merge target filter
also excludes the option with value "origin/feature-x" — a third entry
distinct from both "feat" and "origin/feat" — because the exclusion is a
prefix test, not an equality test. -/
theorem claim_C8_counterexample :
    merge_branch_options [⟨"feature-x (origin)", "origin/feature-x"⟩] "feat" = [] ∧
    ("origin/feature-x" : String) ≠ "feat" ∧
    ("origin/feature-x" : String) ≠ "origin/feat" := by
  refine ⟨rfl, by decide, by decide⟩

/-- C8 amended: the options offered by the merge workflow are exactly the
deduplicated branch options minus the current branch and minus EVERY option
whose value starts with "origin/" ++ current (a prefix exclusion, which
covers the remote-tracking counterpart but may exclude further branches
whose names extend the current one). -/
theorem claim_C8_merge_filter (options : List SelectOption) (cur_b : String)
    (opt : SelectOption) :
    opt ∈ merge_branch_options options cur_b ↔
      (opt ∈ options ∧ opt.value ≠ cur_b ∧
       rustStartsWith opt.value ("origin/" ++ cur_b) = false) := by
  simp [merge_branch_options, List.mem_filter, and_assoc]

/-- Witness for C8 amended: the branch "dev" stays in the filtered options
when the current branch is "main". -/
theorem claim_C8_merge_filter_witness :
    (⟨"dev (local)", "dev"⟩ : SelectOption) ∈
      merge_branch_options [⟨"dev (local)", "dev"⟩, ⟨"main (local)", "main"⟩] "main" :=
  (claim_C8_merge_filter [⟨"dev (local)", "dev"⟩, ⟨"main (local)", "main"⟩] "main"
    ⟨"dev (local)", "dev"⟩).mpr ⟨by simp, by decide, by decide⟩

/-- C4: resolution probes the local candidate first and only for inputs not
carrying the remote prefix; the remote-tracking candidate is always probed
(given the probes themselves answer); for an origin-prefixed input the only
ref-verification query is the remote-tracking candidate (the input itself)
and the returned local_exists is false without any local-ref query. -/
theorem claim_C4_probe_asymmetry (input : String) (g : GitOracle) :
    (rustStartsWith input "origin/" = true →
       refQueries (resolve_branch_input input g).log = [input] ∧
       (∀ info, (resolve_branch_input input g).res = .ok info → info.local_exists = false)) ∧
    (rustStartsWith input "origin/" = false →
       (g.rev_parse_verify input).isOk = true →
       refQueries (resolve_branch_input input g).log = [input, "origin/" ++ input]) := by
  constructor
  · intro hb
    constructor
    · rw [resolve_prefixed_log input g hb]
      simp [refQueries]
    · intro info h
      cases hr : g.rev_parse_verify input with
      | error e =>
        simp [resolve_branch_input, rev_parse_verify_q_eq, withContextW, withContext,
          WE.bind_eq, WE.bind, WE.pure_def, hb, hr] at h
      | ok re =>
        rw [resolve_prefixed_res input g re hb hr] at h
        injection h with h2
        subst h2
        rfl
  · intro hb hok
    rw [resolve_nonprefixed_log input g hb hok]
    simp [refQueries]

/-- Witness for C4: resolving the unprefixed input "x" on `gNone` issues the
two ref-verification queries, local first. -/
theorem claim_C4_probe_asymmetry_witness :
    refQueries (resolve_branch_input "x" gNone).log = ["x", "origin/" ++ "x"] :=
  (claim_C4_probe_asymmetry "x" gNone).2 rfl rfl

/-- C7: after a failed merge or pull, if the user declines the salvage-branch
offer the recovery fails with the manual-resolution error and issues no git
command; if the user accepts with a non-empty, not-yet-existing branch name
and the checkout succeeds, the recovery succeeds having issued exactly the
checkout of the new branch (the original operation is not retried). -/
theorem claim_C7_conflict_recovery (operation_name : String) (g : GitOracle) (p : PromptOracle) :
    (p.confirm "この状態で新しいブランチを作成して変更を保持しますか？" = .ok false →
       (handle_conflict_and_offer_new_branch operation_name g p).res =
         .error "新しいブランチは作成しませんでした。手動で状況を確認してください。" ∧
       gitEffects (handle_conflict_and_offer_new_branch operation_name g p).log = []) ∧
    (∀ name, p.confirm "この状態で新しいブランチを作成して変更を保持しますか？" = .ok true →
       p.input "新しいブランチ名: " = .ok name →
       name.isEmpty = false →
       g.rev_parse_verify name = .ok false →
       g.checkout_b name = .ok () →
       (handle_conflict_and_offer_new_branch operation_name g p).res = .ok () ∧
       gitEffects (handle_conflict_and_offer_new_branch operation_name g p).log =
         [.checkoutB name]) := by
  constructor
  · intro hc
    constructor <;>
      simp [handle_conflict_and_offer_new_branch, prompt_confirm_eq, hc, failW,
        WE.bind_eq, WE.bind, WE.pure_def, gitEffects]
  · intro name hc hin hne hver hco
    constructor <;>
      simp [handle_conflict_and_offer_new_branch, prompt_confirm_eq, prompt_non_empty_input,
        prompt_input_eq, ensure_branch_not_exists, rev_parse_verify_q_eq, checkout_b_eff_eq,
        withContextW, withContext, WE.bind_eq, WE.bind, WE.pure_def, failW,
        hc, hin, hne, hver, hco, gitEffects]

/-- Witness for C7: with the accepting user `pAcc` and the empty repository
`gNone`, recovery from a failed merge succeeds. -/
theorem claim_C7_conflict_recovery_witness :
    (handle_conflict_and_offer_new_branch "マージ" gNone pAcc).res = .ok () ∧
    gitEffects (handle_conflict_and_offer_new_branch "マージ" gNone pAcc).log =
      [.checkoutB "wip-salvage"] :=
  (claim_C7_conflict_recovery "マージ" gNone pAcc).2 "wip-salvage" rfl rfl rfl rfl rfl

/-- C9: when the working-tree status query returns the empty string, the
uncommitted-changes guard returns the continue outcome (true) having shown
no prompt and issued no state-mutating git command; repeated runs in a clean
state therefore never prompt. -/
theorem claim_C9_clean_tree_guard (action_name : String) (g : GitOracle) (p : PromptOracle)
    (h : g.status_porcelain_v1 = .ok "") :
    (handle_uncommitted_changes_before_action action_name g p).res = .ok true ∧
    promptsShown (handle_uncommitted_changes_before_action action_name g p).log = [] ∧
    gitEffects (handle_uncommitted_changes_before_action action_name g p).log = [] := by
  have he : ("" : String).isEmpty = true := rfl
  refine ⟨?_, ?_, ?_⟩ <;>
    simp [handle_uncommitted_changes_before_action, liftW, withContext, h, he,
      WE.bind_eq, WE.bind, WE.pure_def, promptsShown, gitEffects]

/-- Witness for C9 on the clean repository `gNone`. -/
theorem claim_C9_clean_tree_guard_witness :
    (handle_uncommitted_changes_before_action "switch" gNone pDel).res = .ok true ∧
    promptsShown (handle_uncommitted_changes_before_action "switch" gNone pDel).log = [] ∧
    gitEffects (handle_uncommitted_changes_before_action "switch" gNone pDel).log = [] :=
  claim_C9_clean_tree_guard "switch" gNone pDel rfl

/-- C6: the delete workflow never deletes the currently checked-out branch:
when the resolved selection has an existing local candidate equal to the
current branch name, `git_delete` fails with the validation error before any
deletion (or other state-mutating git) command is issued. -/
theorem claim_C6_delete_refuses_current (g : GitOracle) (p : PromptOracle)
    (opts : List SelectOption) (target : String) (resolved : ResolvedBranchInfo) (cur : String)
    (hopts : (get_branch_select_options_for_fuzzy g).res = .ok opts)
    (hne : opts.isEmpty = false)
    (hsel : p.fuzzySelect "削除するブランチを選択:" opts = .ok (some target))
    (hres : (resolve_branch_input target g).res = .ok resolved)
    (hcur : get_current_branch_name g = .ok cur)
    (hloc : resolved.local_exists = true)
    (heq : cur = resolved.local_candidate_name) :
    (git_delete g p).res =
      .error ("エラー: 現在チェックアウト中のローカルブランチ "
              ++ resolved.local_candidate_name ++ " は削除できません。") ∧
    gitEffects (git_delete g p).log = [] := by
  have hne2 : opts ≠ [] := by
    cases opts with
    | nil => simp at hne
    | cons a l => simp
  refine ⟨?_, ?_⟩ <;>
    simp [git_delete, WE.bind_eq, WE.bind, withContextW, withContext, liftW, failW,
      WE.pure_def, hopts, hne2, prompt_fuzzy_select_eq, hsel, hres, hcur, hloc, heq,
      gitEffects_append, get_branch_select_options_log, gitEffects_cons_prompt,
      gitEffects_cons_query, gitEffects_nil, resolve_branch_input_no_effects]

/-- Witness for C6: on `gBr` (current branch `dev`) with the user selecting
`dev` for deletion, the workflow fails the validation and issues no
state-mutating command. -/
theorem claim_C6_delete_refuses_current_witness :
    (git_delete gBr pDel).res =
      .error ("エラー: 現在チェックアウト中のローカルブランチ "
              ++ "dev" ++ " は削除できません。") ∧
    gitEffects (git_delete gBr pDel).log = [] :=
  claim_C6_delete_refuses_current gBr pDel
    [⟨"dev (local)", "dev"⟩, ⟨"main (local)", "main"⟩] "dev"
    ⟨"dev", true, "origin/dev", false⟩ "dev" rfl rfl rfl rfl rfl rfl rfl
